import Mathlib

/-!
Verification of the mission-control commander and worker (Go sources) against
its natural-language specification.  The Go code is shallowly embedded:
Go `time.Time` values are modelled as `Int` Unix seconds, the Redis mission
store as a function from keys to optional records, the Redis token store as an
association list carrying expiry instants, and each HTTP handler or queue
consumer as a pure function from its inputs (request, fresh randomness, clock
reading) to its result and the updated store.
-/

namespace MissionControl

/-- Mission record, from `type Mission struct` in src/commander/main.go.
`payload` is opaque JSON, modelled as `Option String` (`none` is Go `nil`,
i.e. an absent or null payload); times are Unix seconds. -/
structure Mission where
  id : String
  payload : Option String
  status : String
  createdAt : Int
  updatedAt : Int
  inProgressAt : Option Int
  assignedTo : String
  commanderID : String
deriving DecidableEq

/-- Status event, from `type StatusMessage struct` in src/commander/main.go. -/
structure StatusMessage where
  missionID : String
  status : String
  soldierID : String
  token : String
  detail : String
  ts : Int
deriving DecidableEq

/-- Order message, from `type OrderMsg struct` in src/commander/main.go. -/
structure OrderMsg where
  missionID : String
  payload : Option String
  ts : Int
deriving DecidableEq

/-- The effective timestamp of a status event: `t := time.Now(); if ts > 0
then t = time.Unix(ts, 0)` in `updateMissionStatus` (src/commander/main.go). -/
def effectiveTs (ts now : Int) : Int := if ts > 0 then ts else now

/-- Embeds the record-level body of `updateMissionStatus`
(src/commander/main.go lines 419-446): the event status is assigned
verbatim, `UpdatedAt` is set to the effective timestamp, and `InProgressAt`
is set (first-writer-wins) when the event status is IN_PROGRESS and the field
is still nil.  `now` is the value `time.Now()` read during the call. -/
def updateMissionStatus (m : Mission) (status : String) (ts : Int) (now : Int) : Mission :=
  let t := effectiveTs ts now
  let m1 : Mission := { m with status := status, updatedAt := t }
  if status = "IN_PROGRESS" ∧ m1.inProgressAt = none then
    { m1 with inProgressAt := some t }
  else
    m1

/-- The Redis mission keyspace `mission:*`, modelled per key. -/
abbrev MissionStore := String → Option Mission

/-- `redisCli.Set(ctx, "mission:"+id, ...)`: overwrite one key. -/
def storeSet (st : MissionStore) (id : String) (m : Mission) : MissionStore :=
  fun k => if k = id then some m else st k

/-- Store-level `updateMissionStatus`: a `redis.Get` miss (unknown mission)
returns an error and leaves the store unchanged; otherwise the record is
rewritten with the transition applied. -/
def updateMissionStore (st : MissionStore) (id status : String) (ts now : Int) : MissionStore :=
  match st id with
  | none => st
  | some m => storeSet st id (updateMissionStatus m status ts now)

/-- The Redis token keyspace `token:*` of src/commander/main.go: each entry is
(soldierID, stored token hash, absolute expiry instant).  An entry is live
only before its expiry, mirroring Redis key TTL. -/
abbrev TokenStore := List (String × String × Int)

/-- Redis GET on `token:` ++ sid: the first live entry for the key. -/
def tokenGet (st : TokenStore) (sid : String) (now : Int) : Option String :=
  match st.find? (fun p => p.1 == sid) with
  | none => none
  | some p => if now < p.2.2 then some p.2.1 else none

/-- Redis SET on `token:` ++ sid with a TTL: overwrites the key. -/
def tokenSet (st : TokenStore) (sid h : String) (exp : Int) : TokenStore :=
  (sid, h, exp) :: st.filter (fun p => !(p.1 == sid))

/-- Embeds `validateToken` (src/commander/main.go lines 219-230): recompute the
fast hash of the presented token, fetch the stored hash for the soldier, and
compare.  `subtle.ConstantTimeCompare` decides exact equality; the
constant-time aspect is a side-channel property outside this model.  A store
miss or expired key fails closed. -/
def validateToken (hash : String → String) (st : TokenStore) (token sid : String)
    (now : Int) : Bool :=
  match tokenGet st sid now with
  | none => false
  | some storedHash => storedHash == hash token

/-- Request body of POST /token/issue. -/
structure TokenIssueRequest where
  soldierID : String
  secret : String
deriving DecidableEq

/-- Outcome of the issue handler: 400, 401 or 200 with the raw token. -/
inductive IssueResult where
  | badRequest
  | unauthorized
  | ok (token : String) (ttlSecs : Int)
deriving DecidableEq

/-- Fixed token TTL: `ttl := 30 * time.Second` in src/commander/main.go. -/
def tokenTTL : Int := 30

/-- Embeds `verifyBootstrapSecret` (src/commander/main.go lines 208-212):
argon2id of the given secret with the stored salt, compared byte-wise in
constant time, accepts exactly when the secrets are equal; the memory-hard
hash is modelled as collision-free, so the check is equality with the
configured secret. -/
def verifyBootstrapSecret (envSecret given : String) : Bool := given == envSecret

/-- Embeds `issueTokenHandler` (src/commander/main.go lines 232-266).
`freshToken` is the `uuid.New().String()` draw and `now` the clock reading;
on success only the SHA-256 hash of the fresh token is stored, keyed by the
soldier id with expiry `now + tokenTTL`, and the raw token is returned once. -/
def issueTokenHandler (hash : String → String) (envSecret : String) (st : TokenStore)
    (req : TokenIssueRequest) (freshToken : String) (now : Int) : IssueResult × TokenStore :=
  if req.soldierID == "" || req.secret == "" then (IssueResult.badRequest, st)
  else if !(verifyBootstrapSecret envSecret req.secret) then (IssueResult.unauthorized, st)
  else
    (IssueResult.ok freshToken tokenTTL, tokenSet st req.soldierID (hash freshToken) (now + tokenTTL))

/-- One row of the GET /admin/tokens response (src/commander/main.go
lines 448-467): soldier id, stored token hash, remaining TTL in seconds. -/
structure TokenListEntry where
  soldierID : String
  tokenHash : String
  ttlSecs : Int
deriving DecidableEq

/-- Embeds `listTokensHandler` (src/commander/main.go lines 448-467): scan the
live `token:*` keys and report, per key, the soldier id, the stored hash and
the remaining TTL.  Expired entries are invisible to the Redis scan. -/
def listTokensHandler (st : TokenStore) (now : Int) : List TokenListEntry :=
  (st.filter (fun p => decide (now < p.2.2))).map
    (fun p => { soldierID := p.1, tokenHash := p.2.1, ttlSecs := p.2.2 - now })

/-- Embeds the per-message body of `consumeStatusQueue`
(src/commander/main.go lines 268-295): a message that fails to decode
(`msg = none`) is dropped; a message whose token fails validation is dropped;
otherwise `updateMissionStatus` is applied to the store. -/
def processStatusEvent (hash : String → String) (tokens : TokenStore) (st : MissionStore)
    (msg : Option StatusMessage) (now : Int) : MissionStore :=
  match msg with
  | none => st
  | some s =>
    if validateToken hash tokens s.token s.soldierID now then
      updateMissionStore st s.missionID s.status s.ts now
    else st

/-- Request body of POST /missions (src/commander/main.go lines 297-302):
Go JSON binding leaves `Target` and `CommanderID` as the empty string when
absent, and `Payload` as nil (`none`) when absent or null. -/
structure CreateMissionRequest where
  target : String
  payload : Option String
  commanderID : String
deriving DecidableEq

/-- Outcome of the mission-creation handler. -/
inductive CreateResult where
  | badRequest
  | ok (missionID : String)
deriving DecidableEq

/-- A broker publication: exchange, routing key and the order message. -/
structure Publication where
  exchange : String
  routingKey : String
  order : OrderMsg
deriving DecidableEq

/-- Embeds `createMissionHandler` (src/commander/main.go lines 297-365).
`req = none` is a body that fails JSON binding (400).  A bound request with
an empty target is rejected with 400.  Otherwise the mission record is
persisted with status QUEUED and the order message is published to the
`mission_direct` exchange with the target identity as routing key.  The
result carries the HTTP outcome, the stored record and the publication. -/
def createMissionHandler (req : Option CreateMissionRequest) (freshID : String)
    (now : Int) : CreateResult × Option Mission × Option Publication :=
  match req with
  | none => (CreateResult.badRequest, none, none)
  | some r =>
    if r.target = "" then (CreateResult.badRequest, none, none)
    else
      let cid := if r.commanderID = "" then "commander-1" else r.commanderID
      let m : Mission :=
        { id := freshID, payload := r.payload, status := "QUEUED", createdAt := now,
          updatedAt := now, inProgressAt := none, assignedTo := r.target, commanderID := cid }
      let order : OrderMsg := { missionID := freshID, payload := r.payload, ts := now }
      (CreateResult.ok freshID, some m,
        some { exchange := "mission_direct", routingKey := r.target, order := order })

/-- State of the worker's execution pool (src/worker/main.go lines 95-145):
the number of goroutines currently holding a slot of the buffered channel
`sem := make(chan struct 0, concurrency)`. -/
structure WorkerPool where
  inFlight : Nat
deriving DecidableEq

/-- Step relation of the worker loop under concurrency limit `N`
(src/worker/main.go lines 101-145): `acquire` is the send `sem <- unit`,
which can fire only while the buffered channel holds fewer than `N` items
(otherwise the loop blocks); `release` is the deferred receive `<-sem` of a
finishing execution goroutine. -/
inductive WorkerStep (N : Nat) : WorkerPool → WorkerPool → Prop where
  | acquire (s : WorkerPool) (h : s.inFlight < N) : WorkerStep N s { inFlight := s.inFlight + 1 }
  | release (s : WorkerPool) (h : 0 < s.inFlight) : WorkerStep N s { inFlight := s.inFlight - 1 }

/-- Fold a sequence of status events (status, ts, now) through
`updateMissionStatus`. -/
def applyEvents (m : Mission) (evs : List (String × Int × Int)) : Mission :=
  evs.foldl (fun acc e => updateMissionStatus acc e.1 e.2.1 e.2.2) m

/-- Fold a sequence of token issuances (request, fresh token, now) through
`issueTokenHandler`, keeping the resulting store. -/
def runIssues (hash : String → String) (envSecret : String)
    (ops : List (TokenIssueRequest × String × Int)) (st : TokenStore) : TokenStore :=
  ops.foldl (fun acc op => (issueTokenHandler hash envSecret acc op.1 op.2.1 op.2.2).2) st

theorem updateMissionStatus_status (m : Mission) (s : String) (ts now : Int) :
    (updateMissionStatus m s ts now).status = s := by
  unfold updateMissionStatus
  dsimp only
  split <;> rfl

theorem updateMissionStatus_updatedAt (m : Mission) (s : String) (ts now : Int) :
    (updateMissionStatus m s ts now).updatedAt = effectiveTs ts now := by
  unfold updateMissionStatus
  dsimp only
  split <;> rfl


theorem applyEvents_cons (m : Mission) (e : String × Int × Int)
    (rest : List (String × Int × Int)) :
    applyEvents m (e :: rest) = applyEvents (updateMissionStatus m e.1 e.2.1 e.2.2) rest := rfl

/-- A concrete queued mission record, used as witness input. -/
def sampleQueued : Mission :=
  { id := "m1", payload := some "p", status := "QUEUED", createdAt := 0, updatedAt := 0, inProgressAt := none, assignedTo := "w1", commanderID := "c1" }

/-- A concrete completed mission record, used as witness input. -/
def sampleCompleted : Mission :=
  { id := "m1", payload := some "p", status := "COMPLETED", createdAt := 0, updatedAt := 10, inProgressAt := none, assignedTo := "w1", commanderID := "c1" }

/-- A concrete in-progress mission record with updatedAt 100, used as witness input. -/
def sampleInProgress : Mission :=
  { id := "m1", payload := some "p", status := "IN_PROGRESS", createdAt := 0, updatedAt := 100, inProgressAt := some 100, assignedTo := "w1", commanderID := "c1" }

/-- A concrete queued mission record with updatedAt 5, used as witness input. -/
def sampleQueuedAt5 : Mission :=
  { id := "m1", payload := some "p", status := "QUEUED", createdAt := 0, updatedAt := 5, inProgressAt := none, assignedTo := "w1", commanderID := "c1" }

/-- A concrete mission store holding `sampleQueued` under its id. -/
def sampleStore : MissionStore := fun k => if k = "m1" then some sampleQueued else none

/-- C9: frame condition of transitions: `updateMissionStatus` may change only
the status, updatedAt and inProgressAt fields; the id, payload, createdAt,
assignedTo and commanderID fields of the mission record are returned
unchanged. -/
theorem transition_frame (m : Mission) (s : String) (ts now : Int) :
    (updateMissionStatus m s ts now).id = m.id ∧
    (updateMissionStatus m s ts now).payload = m.payload ∧
    (updateMissionStatus m s ts now).createdAt = m.createdAt ∧
    (updateMissionStatus m s ts now).assignedTo = m.assignedTo ∧
    (updateMissionStatus m s ts now).commanderID = m.commanderID := by
  unfold updateMissionStatus
  dsimp only
  split <;> exact ⟨rfl, rfl, rfl, rfl, rfl⟩

/-- C1 counterexample: terminal statuses are not absorbing.  A mission whose
status is COMPLETED, given a further IN_PROGRESS transition through
`updateMissionStatus`, does not keep status COMPLETED: the code applies the
event status with no terminal-state check. -/
theorem terminal_absorbing_cex :
    (updateMissionStatus sampleCompleted "IN_PROGRESS" 20 20).status ≠ "COMPLETED" := by decide

/-- C1 (amended): `updateMissionStatus` performs no terminal-state check and
no transition-graph check: even for a mission whose status is COMPLETED or
FAILED, the applied event's status replaces the stored status verbatim, so a
terminal mission moves to whatever status the next applied event carries. -/
theorem terminal_status_overwritten (m : Mission) (s : String) (ts now : Int)
    (hterm : m.status = "COMPLETED" ∨ m.status = "FAILED") :
    (updateMissionStatus m s ts now).status = s :=
  updateMissionStatus_status m s ts now

theorem terminal_status_overwritten_witness :
    (sampleCompleted.status = "COMPLETED" ∨ sampleCompleted.status = "FAILED") ∧
    (updateMissionStatus sampleCompleted "IN_PROGRESS" 20 20).status = "IN_PROGRESS" :=
  ⟨Or.inl (by decide),
    terminal_status_overwritten sampleCompleted "IN_PROGRESS" 20 20 (Or.inl (by decide))⟩

/-- C2 counterexample: with a COMPLETED event applied first (ts 10) and an
IN_PROGRESS event applied second (ts 20) to a QUEUED mission, the final record
does not have status COMPLETED with inProgressAt unset: the code overwrites
the terminal status and sets inProgressAt. -/
theorem reorder_policy_cex :
    ¬ ((updateMissionStatus (updateMissionStatus sampleQueued "COMPLETED" 10 10)
          "IN_PROGRESS" 20 20).status = "COMPLETED" ∧
        (updateMissionStatus (updateMissionStatus sampleQueued "COMPLETED" 10 10)
          "IN_PROGRESS" 20 20).inProgressAt = none) := by decide

/-- C2 (amended): for a QUEUED mission with inProgressAt unset, applying a
COMPLETED event and then an IN_PROGRESS event (with positive timestamp ts2)
leaves the record with status IN_PROGRESS and inProgressAt set to ts2: the
later IN_PROGRESS event overwrites the terminal status. -/
theorem reorder_overwrites (m : Mission) (ts1 now1 ts2 now2 : Int)
    (hq : m.status = "QUEUED") (hip : m.inProgressAt = none) (hts2 : 0 < ts2) :
    (updateMissionStatus (updateMissionStatus m "COMPLETED" ts1 now1)
        "IN_PROGRESS" ts2 now2).status = "IN_PROGRESS" ∧
    (updateMissionStatus (updateMissionStatus m "COMPLETED" ts1 now1)
        "IN_PROGRESS" ts2 now2).inProgressAt = some ts2 := by
  unfold updateMissionStatus effectiveTs
  dsimp only
  simp [hip, hts2]

theorem reorder_overwrites_witness :
    sampleQueued.status = "QUEUED" ∧ sampleQueued.inProgressAt = none ∧ (0 : Int) < 20 ∧
    ((updateMissionStatus (updateMissionStatus sampleQueued "COMPLETED" 10 10)
        "IN_PROGRESS" 20 20).status = "IN_PROGRESS" ∧
      (updateMissionStatus (updateMissionStatus sampleQueued "COMPLETED" 10 10)
        "IN_PROGRESS" 20 20).inProgressAt = some 20) :=
  ⟨by decide, by decide, by decide,
    reorder_overwrites sampleQueued 10 10 20 20 (by decide) (by decide) (by decide)⟩

/-- C5 counterexample: a terminal-status event with a non-positive timestamp
is stamped with the clock reading, so applying the same COMPLETED event twice
(at clock readings 1 and then 2) does not yield the same record as applying
it once: the second application moves updatedAt to the later clock value. -/
theorem terminal_idempotent_cex :
    updateMissionStatus (updateMissionStatus sampleQueued "COMPLETED" 0 1) "COMPLETED" 0 2 ≠
      updateMissionStatus sampleQueued "COMPLETED" 0 1 := by decide

/-- C5 (amended): for a terminal-status event carrying a positive timestamp,
applying the same event twice through `updateMissionStatus` yields exactly
the same final mission record (all fields) as applying it once, whatever the
clock readings of the two applications. -/
theorem terminal_event_idempotent (m : Mission) (s : String) (ts now1 now2 : Int)
    (hterm : s = "COMPLETED" ∨ s = "FAILED") (hts : 0 < ts) :
    updateMissionStatus (updateMissionStatus m s ts now1) s ts now2 =
      updateMissionStatus m s ts now1 := by
  have hs : ¬ (s = "IN_PROGRESS") := by
    rcases hterm with h | h <;> subst h <;> decide
  unfold updateMissionStatus effectiveTs
  dsimp only
  simp [hs, hts]

theorem terminal_event_idempotent_witness :
    (("FAILED" : String) = "COMPLETED" ∨ ("FAILED" : String) = "FAILED") ∧ (0 : Int) < 7 ∧
    updateMissionStatus (updateMissionStatus sampleQueued "FAILED" 7 1) "FAILED" 7 2 =
      updateMissionStatus sampleQueued "FAILED" 7 1 :=
  ⟨Or.inr (by decide), by decide,
    terminal_event_idempotent sampleQueued "FAILED" 7 1 2 (Or.inr (by decide)) (by decide)⟩

/-- C8 counterexample: updatedAt is not non-decreasing.  A mission with
updatedAt 100 receiving an event with the older positive timestamp 50 (clock
reading 200) ends with updatedAt 50, a strict decrease. -/
theorem updatedAt_monotone_cex :
    (updateMissionStatus sampleInProgress "COMPLETED" 50 200).updatedAt <
      sampleInProgress.updatedAt := by decide

/-- C8 (amended): `updateMissionStatus` sets updatedAt to the effective event
timestamp (the event ts if positive, the clock reading otherwise)
unconditionally, so an older positive timestamp moves updatedAt backwards;
updatedAt is non-decreasing over a sequence of transitions exactly when the
effective timestamps are non-decreasing starting from the record's current
updatedAt. -/
theorem updatedAt_monotone_chain (m : Mission) (evs : List (String × Int × Int))
    (hchain : List.Chain (fun a b => a ≤ b) m.updatedAt
      (evs.map (fun e => effectiveTs e.2.1 e.2.2))) :
    m.updatedAt ≤ (applyEvents m evs).updatedAt := by
  induction evs generalizing m with
  | nil => exact le_refl _
  | cons e rest ih =>
    rw [List.map_cons, List.chain_cons] at hchain
    have hup : (updateMissionStatus m e.1 e.2.1 e.2.2).updatedAt = effectiveTs e.2.1 e.2.2 :=
      updateMissionStatus_updatedAt m e.1 e.2.1 e.2.2
    have hrest : (updateMissionStatus m e.1 e.2.1 e.2.2).updatedAt ≤
        (applyEvents (updateMissionStatus m e.1 e.2.1 e.2.2) rest).updatedAt := by
      apply ih
      rw [hup]
      exact hchain.2
    rw [applyEvents_cons]
    exact le_trans (hup ▸ hchain.1) hrest

theorem updatedAt_monotone_chain_witness :
    List.Chain (fun a b => a ≤ b) sampleQueuedAt5.updatedAt
      ([("IN_PROGRESS", 7, 0), ("COMPLETED", 0, 9)].map
        (fun e => effectiveTs e.2.1 e.2.2)) ∧
    sampleQueuedAt5.updatedAt ≤
      (applyEvents sampleQueuedAt5 [("IN_PROGRESS", 7, 0), ("COMPLETED", 0, 9)]).updatedAt :=
  ⟨by norm_num [List.chain_cons, effectiveTs, sampleQueuedAt5],
    updatedAt_monotone_chain sampleQueuedAt5 [("IN_PROGRESS", 7, 0), ("COMPLETED", 0, 9)]
      (by norm_num [List.chain_cons, effectiveTs, sampleQueuedAt5])⟩

/-- C10: statuses are written verbatim.  For a status event that passes token
validation and names a known mission, `processStatusEvent` stores the event's
status string as-is as the mission's new status, whatever string it is — the
ingestor performs no membership check on the status value. -/
theorem status_written_verbatim (hash : String → String) (tokens : TokenStore)
    (st : MissionStore) (s : StatusMessage) (now : Int) (m : Mission)
    (hval : validateToken hash tokens s.token s.soldierID now = true)
    (hknown : st s.missionID = some m) :
    processStatusEvent hash tokens st (some s) now s.missionID =
      some (updateMissionStatus m s.status s.ts now) ∧
    (updateMissionStatus m s.status s.ts now).status = s.status := by
  refine ⟨?_, updateMissionStatus_status m s.status s.ts now⟩
  simp [processStatusEvent, hval, updateMissionStore, hknown, storeSet]

theorem status_written_verbatim_witness :
    validateToken (fun x => x) [("w1", "tok1", 100)] "tok1" "w1" 0 = true ∧
    sampleStore "m1" = some sampleQueued ∧
    (processStatusEvent (fun x => x) [("w1", "tok1", 100)] sampleStore
        (some { missionID := "m1", status := "BANANA", soldierID := "w1", token := "tok1", detail := "", ts := 5 }) 0) "m1" =
      some (updateMissionStatus sampleQueued "BANANA" 5 0) ∧
    (updateMissionStatus sampleQueued "BANANA" 5 0).status = "BANANA" :=
  ⟨by decide, by decide,
    status_written_verbatim (fun x => x) [("w1", "tok1", 100)] sampleStore
      { missionID := "m1", status := "BANANA", soldierID := "w1", token := "tok1", detail := "", ts := 5 }
      0 sampleQueued (by decide) (by decide)⟩

/-- C3: re-issuing a credential for the same worker identity supersedes the
prior one.  With the correct bootstrap secret, the first issuance returns raw
token t1 with TTL 30 and the second returns t2 with TTL 30; the tokens differ
(fresh random draws), and against the store left by the second issuance,
validating t1 fails while validating t2 succeeds at any instant before t2's
TTL elapses.  Freshness of the uuid draws and collision-freeness of SHA-256
on them enter as the hypotheses hfresh and hcoll. -/
theorem reissue_supersedes (hash : String → String) (envSecret secret w1 t1 t2 : String)
    (st0 : TokenStore) (now1 now2 now3 : Int)
    (hw : w1 ≠ "") (hsec : secret ≠ "") (hgood : secret = envSecret)
    (hfresh : t1 ≠ t2) (hcoll : hash t1 ≠ hash t2) (httl : now3 < now2 + tokenTTL) :
    (issueTokenHandler hash envSecret st0 ⟨w1, secret⟩ t1 now1).1 = IssueResult.ok t1 tokenTTL ∧
    (issueTokenHandler hash envSecret (issueTokenHandler hash envSecret st0 ⟨w1, secret⟩ t1 now1).2 ⟨w1, secret⟩ t2 now2).1 = IssueResult.ok t2 tokenTTL ∧
    t1 ≠ t2 ∧
    validateToken hash (issueTokenHandler hash envSecret (issueTokenHandler hash envSecret st0 ⟨w1, secret⟩ t1 now1).2 ⟨w1, secret⟩ t2 now2).2 t1 w1 now3 = false ∧
    validateToken hash (issueTokenHandler hash envSecret (issueTokenHandler hash envSecret st0 ⟨w1, secret⟩ t1 now1).2 ⟨w1, secret⟩ t2 now2).2 t2 w1 now3 = true := by
  have hw2 : (w1 == "") = false := by simpa using hw
  have hsec2 : (secret == "") = false := by simpa using hsec
  have hver : verifyBootstrapSecret envSecret secret = true := by
    simp [verifyBootstrapSecret, hgood]
  have hcoll2 : (hash t2 == hash t1) = false := by
    simpa using (Ne.symm hcoll)
  refine ⟨?_, ?_, hfresh, ?_, ?_⟩
  · simp [issueTokenHandler, hw2, hsec2, hver]
  · simp [issueTokenHandler, hw2, hsec2, hver]
  · simp [issueTokenHandler, hw2, hsec2, hver, validateToken, tokenGet, tokenSet, List.find?,
      httl, hcoll2]
  · simp [issueTokenHandler, hw2, hsec2, hver, validateToken, tokenGet, tokenSet, List.find?,
      httl]

theorem reissue_supersedes_witness :
    ("w1" : String) ≠ "" ∧ ("sec" : String) ≠ "" ∧ ("a" : String) ≠ "b" ∧
    (fun x => x) ("a" : String) ≠ (fun x => x) ("b" : String) ∧ (10 : Int) < 0 + tokenTTL ∧
    ((issueTokenHandler (fun x => x) "sec" [] ⟨"w1", "sec"⟩ "a" 0).1 = IssueResult.ok "a" tokenTTL ∧
      (issueTokenHandler (fun x => x) "sec" (issueTokenHandler (fun x => x) "sec" [] ⟨"w1", "sec"⟩ "a" 0).2 ⟨"w1", "sec"⟩ "b" 0).1 = IssueResult.ok "b" tokenTTL ∧
      ("a" : String) ≠ "b" ∧
      validateToken (fun x => x) (issueTokenHandler (fun x => x) "sec" (issueTokenHandler (fun x => x) "sec" [] ⟨"w1", "sec"⟩ "a" 0).2 ⟨"w1", "sec"⟩ "b" 0).2 "a" "w1" 10 = false ∧
      validateToken (fun x => x) (issueTokenHandler (fun x => x) "sec" (issueTokenHandler (fun x => x) "sec" [] ⟨"w1", "sec"⟩ "a" 0).2 ⟨"w1", "sec"⟩ "b" 0).2 "b" "w1" 10 = true) :=
  ⟨by decide, by decide, by decide, by decide, by decide,
    reissue_supersedes (fun x => x) "sec" "sec" "w1" "a" "b" [] 0 0 10
      (by decide) (by decide) rfl (by decide) (by decide) (by decide)⟩

/-- C4 counterexample: a submission with a valid payload but no target does
not succeed via the shared queue: `createMissionHandler` rejects it with 400
and publishes nothing. -/
theorem dispatch_strategy_cex :
    (createMissionHandler (some { target := "", payload := some "p", commanderID := "c1" }) "id1" 5).1 = CreateResult.badRequest ∧
    (createMissionHandler (some { target := "", payload := some "p", commanderID := "c1" }) "id1" 5).2.2 = none := by decide

/-- C4 (amended): when target is present the submission succeeds and the
order message with schema (mission_id, payload, ts) is published to the
`mission_direct` exchange routed by the target identity; when target is
absent the submission fails with 400 and nothing is published (there is no
shared-queue fallback); a body that fails JSON binding fails with 400. -/
theorem dispatch_direct_only (r : CreateMissionRequest) (freshID : String) (now : Int)
    (ht : r.target ≠ "") :
    (createMissionHandler (some r) freshID now).1 = CreateResult.ok freshID ∧
    (createMissionHandler (some r) freshID now).2.2 =
      some { exchange := "mission_direct", routingKey := r.target, order := { missionID := freshID, payload := r.payload, ts := now } } ∧
    (createMissionHandler (some { r with target := "" }) freshID now).1 = CreateResult.badRequest ∧
    createMissionHandler none freshID now = (CreateResult.badRequest, none, none) := by
  simp [createMissionHandler, ht]

theorem dispatch_direct_only_witness :
    (({ target := "w1", payload := some "p", commanderID := "" } : CreateMissionRequest).target ≠ "") ∧
    ((createMissionHandler (some { target := "w1", payload := some "p", commanderID := "" }) "id1" 5).1 = CreateResult.ok "id1" ∧
      (createMissionHandler (some { target := "w1", payload := some "p", commanderID := "" }) "id1" 5).2.2 =
        some { exchange := "mission_direct", routingKey := ({ target := "w1", payload := some "p", commanderID := "" } : CreateMissionRequest).target, order := { missionID := "id1", payload := ({ target := "w1", payload := some "p", commanderID := "" } : CreateMissionRequest).payload, ts := 5 } } ∧
      (createMissionHandler (some { ({ target := "w1", payload := some "p", commanderID := "" } : CreateMissionRequest) with target := "" }) "id1" 5).1 = CreateResult.badRequest ∧
      createMissionHandler none "id1" 5 = (CreateResult.badRequest, none, none)) :=
  ⟨by decide,
    dispatch_direct_only { target := "w1", payload := some "p", commanderID := "" } "id1" 5 (by decide)⟩

/-- C6: after a successful issuance the admin token listing contains, for the
issued identity, exactly the soldier id, the hash of the raw token and the
remaining TTL; and every listing entry for that identity carries the stored
hash, never the raw token itself (SHA-256 having no fixed point at the raw
token enters as the hypothesis hnofix).  The listing's row type has no other
field, so raw tokens appear in no output of the admin listing. -/
theorem admin_listing_hashes_only (hash : String → String) (envSecret : String)
    (st : TokenStore) (req : TokenIssueRequest) (raw : String) (now lnow : Int)
    (hsid : req.soldierID ≠ "") (hsec : req.secret ≠ "") (hgood : req.secret = envSecret)
    (hnofix : hash raw ≠ raw) (hlive : lnow < now + tokenTTL) :
    (⟨req.soldierID, hash raw, now + tokenTTL - lnow⟩ : TokenListEntry) ∈
      listTokensHandler (issueTokenHandler hash envSecret st req raw now).2 lnow ∧
    ∀ e ∈ listTokensHandler (issueTokenHandler hash envSecret st req raw now).2 lnow,
      e.soldierID = req.soldierID → e.tokenHash = hash raw ∧ e.tokenHash ≠ raw := by
  have hsid2 : (req.soldierID == "") = false := by simpa using hsid
  have hsec2 : (req.secret == "") = false := by simpa using hsec
  have hver : verifyBootstrapSecret envSecret req.secret = true := by
    simp [verifyBootstrapSecret, hgood]
  have hst : (issueTokenHandler hash envSecret st req raw now).2 =
      (req.soldierID, hash raw, now + tokenTTL) :: st.filter (fun p => !(p.1 == req.soldierID)) := by
    simp [issueTokenHandler, hsid2, hsec2, hver, tokenSet]
  constructor
  · rw [hst]
    simp only [listTokensHandler]
    apply List.mem_map.mpr
    refine ⟨(req.soldierID, hash raw, now + tokenTTL), ?_, rfl⟩
    apply List.mem_filter.mpr
    exact ⟨List.mem_cons_self _ _, by simpa using hlive⟩
  · intro e he hesid
    rw [hst] at he
    simp only [listTokensHandler] at he
    rcases List.mem_map.mp he with ⟨p, hp, rfl⟩
    rcases List.mem_filter.mp hp with ⟨hp1, _⟩
    rcases List.mem_cons.mp hp1 with hp2 | hp2
    · subst hp2
      exact ⟨rfl, hnofix⟩
    · exfalso
      have hpk := (List.mem_filter.mp hp2).2
      rw [Bool.not_eq_true', beq_eq_false_iff_ne] at hpk
      exact hpk (by simpa using hesid)

theorem admin_listing_hashes_only_witness :
    (("w1" : String) ≠ "") ∧ (("sec" : String) ≠ "") ∧
    ((fun x => String.append "h" x) ("a" : String) ≠ "a") ∧ ((10 : Int) < 0 + tokenTTL) ∧
    ((⟨"w1", (fun x => String.append "h" x) "a", 0 + tokenTTL - 10⟩ : TokenListEntry) ∈
        listTokensHandler (issueTokenHandler (fun x => String.append "h" x) "sec" [] ⟨"w1", "sec"⟩ "a" 0).2 10 ∧
      ∀ e ∈ listTokensHandler (issueTokenHandler (fun x => String.append "h" x) "sec" [] ⟨"w1", "sec"⟩ "a" 0).2 10,
        e.soldierID = "w1" → e.tokenHash = (fun x => String.append "h" x) "a" ∧ e.tokenHash ≠ "a") :=
  ⟨by decide, by decide, by decide, by decide,
    admin_listing_hashes_only (fun x => String.append "h" x) "sec" [] ⟨"w1", "sec"⟩ "a" 0 10
      (by decide) (by decide) rfl (by decide) (by decide)⟩

/-- C7: bounded concurrency.  Along every execution of the worker loop
reachable from the idle pool under concurrency limit N, at no point are more
than N mission executions in flight; and from a state with all N slots busy
no acquire step exists — the only possible step releases a slot, so the loop's
slot acquisition (and with it the handling of the next dequeued order) blocks
until a slot is released. -/
theorem worker_pool_bounded (N : Nat) (s : WorkerPool)
    (h : Relation.ReflTransGen (WorkerStep N) { inFlight := 0 } s) :
    s.inFlight ≤ N ∧
    ∀ s2, WorkerStep N s s2 → s.inFlight = N → s2.inFlight = N - 1 := by
  constructor
  · induction h with
    | refl => exact Nat.zero_le N
    | tail hab hbc ih =>
      cases hbc with
      | acquire hu => exact hu
      | release hu => exact le_trans (Nat.sub_le _ _) ih
  · intro s2 hstep hfull
    cases hstep with
    | acquire hu => exact absurd hfull (Nat.ne_of_lt hu)
    | release hu => simp [hfull]

theorem worker_pool_bounded_witness :
    ({ inFlight := 1 } : WorkerPool).inFlight ≤ 2 ∧
    ∀ s2, WorkerStep 2 { inFlight := 1 } s2 →
      ({ inFlight := 1 } : WorkerPool).inFlight = 2 → s2.inFlight = 2 - 1 :=
  worker_pool_bounded 2 { inFlight := 1 }
    (Relation.ReflTransGen.single (WorkerStep.acquire { inFlight := 0 } (by decide)))

end MissionControl
